import Mathlib

/-!
Verification of the linproj native shim.

The repository has two C translation units:
  * `src/LDA.c` defines `dsygvx_c`, a forwarding function that builds a fixed
    configuration and performs a single `F77_CALL(dsygvx)`;
  * `src/linproj_init.c` defines the registration table `CEntries` and the
    module initializer `R_init_linproj`.

We embed them shallowly.  Caller-visible memory is a pair of total stores
(one for C `int` cells, one for `double` cells, both addressed by `Nat`);
`double` values are represented by rationals, which is adequate here because
the shim only forwards literal constants (`0.0`, `1e-5`) and never computes
with doubles.  The external Fortran routine `dsygvx` is not part of the
repository: it is modelled as an arbitrary function from a call record and a
memory to a memory, and the shim's semantics returns both the list of
external calls it performed and the resulting memory.
-/

namespace Linproj

/-- Addresses of caller-supplied cells and buffers. -/
abbrev Addr := Nat

/-- Caller-visible memory: a store of C `int` cells and a store of `double`
cells (doubles as rationals; the shim never computes with them). -/
@[ext] structure Mem where
  ints : Addr → Int
  dbls : Addr → ℚ

/-- The eleven by-reference parameters of `dsygvx_c`, in source order:
`(n, a, b, il, m, w, z, work, iwork, ifail, info)`. -/
structure CArgs where
  n : Addr
  a : Addr
  b : Addr
  il : Addr
  m : Addr
  w : Addr
  z : Addr
  work : Addr
  iwork : Addr
  ifail : Addr
  info : Addr

/-- C `int` arithmetic: two's-complement wrap-around at 32 bits. -/
def wrap32 (x : Int) : Int := (x + 2147483648) % 4294967296 - 2147483648

/-- The argument record of one `F77_CALL(dsygvx)`.  Scalars that the shim
passes by the address of a stack local (`itype`, `jobz`, `range`, `uplo`,
`vl`, `vu`, `abstol`, `lwork`) appear by value; caller buffers appear as the
forwarded addresses.  `lda`, `ldb`, `iu` and `ldz` are addresses because the
source passes the pointer `n` itself in those positions. -/
structure FortranCall where
  itype : Int
  jobz : Char
  range : Char
  uplo : Char
  n : Addr
  a : Addr
  lda : Addr
  b : Addr
  ldb : Addr
  vl : ℚ
  vu : ℚ
  il : Addr
  iu : Addr
  abstol : ℚ
  m : Addr
  w : Addr
  z : Addr
  ldz : Addr
  work : Addr
  lwork : Int
  iwork : Addr
  ifail : Addr
  info : Addr

/-- The call record `dsygvx_c` builds from its arguments: the hardcoded
configuration of `src/LDA.c` plus the forwarded caller pointers.  `lwork` is
computed as `8 * (*n)` in C `int` arithmetic. -/
def dsygvxCall (mem : Mem) (args : CArgs) : FortranCall :=
  { itype := 1
    jobz := 'V'
    range := 'I'
    uplo := 'U'
    n := args.n
    a := args.a
    lda := args.n
    b := args.b
    ldb := args.n
    vl := 0
    vu := 0
    il := args.il
    iu := args.n
    abstol := 1e-5
    m := args.m
    w := args.w
    z := args.z
    ldz := args.n
    work := args.work
    lwork := wrap32 (8 * mem.ints args.n)
    iwork := args.iwork
    ifail := args.ifail
    info := args.info }

/-- Shallow embedding of `dsygvx_c` from `src/LDA.c`: it sets up its stack
locals, performs the single external call `ext`, and returns.  The result is
the list of external calls made during the invocation together with the
memory produced by the external routine. -/
def dsygvx_c (ext : FortranCall → Mem → Mem) (mem : Mem) (args : CArgs) :
    List FortranCall × Mem :=
  ([dsygvxCall mem args], ext (dsygvxCall mem args) mem)

/-- One row of the `.C` registration table (`R_CMethodDef`): a symbol name, a
function address, and the declared number of arguments.  The address slot
holds the embedded shim itself, mirroring `(DL_FUNC) &dsygvx_c`. -/
structure CMethodDef where
  name : Option String
  fn : Option ((FortranCall → Mem → Mem) → Mem → CArgs → List FortranCall × Mem)
  numArgs : Int

/-- The names of the eleven formal parameters of `dsygvx_c`, in the order of
the source signature. -/
def dsygvxParamNames : List String :=
  ["n", "a", "b", "il", "m", "w", "z", "work", "iwork", "ifail", "info"]

/-- The loader-visible state of the loaded module: the four routine tables
(`.C`, `.Call`, `.Fortran`, `.External`) handed to `R_registerRoutines`
(`none` models a NULL table), the dynamic-symbol flag set by
`R_useDynamicSymbols`, and the set of symbol names present in the compiled
object. -/
structure DllInfo where
  cRoutines : Option (List CMethodDef)
  callRoutines : Option (List CMethodDef)
  fortranRoutines : Option (List CMethodDef)
  externalRoutines : Option (List CMethodDef)
  useDynSym : Bool
  moduleSymbols : List String

/-- Host-loader primitive: store the four routine tables in the module
state. -/
def R_registerRoutines (dll : DllInfo)
    (cTab callTab fortranTab externalTab : Option (List CMethodDef)) : DllInfo :=
  { dll with
    cRoutines := cTab
    callRoutines := callTab
    fortranRoutines := fortranTab
    externalRoutines := externalTab }

/-- Host-loader primitive: set the flag that allows dynamic lookup of
symbols not listed in a registration table. -/
def R_useDynamicSymbols (dll : DllInfo) (b : Bool) : DllInfo :=
  { dll with useDynSym := b }

/-- The registration table `CEntries` of `src/linproj_init.c`: one callable
row for `dsygvx_c` with arity 11, then the all-NULL terminator row. -/
def CEntries : List CMethodDef :=
  [ { name := some ("dsygvx_c"), fn := some dsygvx_c, numArgs := 11 },
    { name := none, fn := none, numArgs := 0 } ]

/-- Shallow embedding of `R_init_linproj`: register `CEntries` as the `.C`
table with NULL `.Call`, `.Fortran` and `.External` tables, then disable
dynamic symbol lookup. -/
def R_init_linproj (dll : DllInfo) : DllInfo :=
  R_useDynamicSymbols (R_registerRoutines dll (some CEntries) none none none) false

/-- Lookup of a name in one routine table, following the host loader's
documented behaviour: a name resolves through a table when some row carries
that name together with a function address. -/
def lookupIn (t : Option (List CMethodDef)) (s : String) : Bool :=
  (t.getD []).any fun e => e.name == some s && e.fn.isSome

/-- Whether a symbol name is resolvable from the loaded module, following
the host loader's documented behaviour: through any of the four registered
tables, or — only when dynamic lookup is enabled — as a raw symbol of the
compiled object. -/
def symbolResolvable (dll : DllInfo) (s : String) : Bool :=
  lookupIn dll.cRoutines s || lookupIn dll.callRoutines s ||
    lookupIn dll.fortranRoutines s || lookupIn dll.externalRoutines s ||
    (dll.useDynSym && dll.moduleSymbols.contains s)

/-- C1: every invocation of `dsygvx_c` performs exactly one external call to
`dsygvx`, with the hardcoded configuration `itype = 1`, `jobz = 'V'`,
`range = 'I'`, `uplo = 'U'`, upper selection index `iu` the pointer `n`,
leading dimensions `lda = ldb = ldz` all the pointer `n`, and
`abstol = 1e-5`, while the caller-supplied `n`, `a`, `b`, `il`, `m`, `w`,
`z`, `work`, `iwork`, `ifail`, `info` pointers are forwarded unchanged. -/
theorem dsygvx_c_single_call_config (ext : FortranCall → Mem → Mem)
    (mem : Mem) (args : CArgs) :
    (dsygvx_c ext mem args).1 = [dsygvxCall mem args] ∧
    (dsygvxCall mem args).itype = 1 ∧
    (dsygvxCall mem args).jobz = 'V' ∧
    (dsygvxCall mem args).range = 'I' ∧
    (dsygvxCall mem args).uplo = 'U' ∧
    (dsygvxCall mem args).iu = args.n ∧
    (dsygvxCall mem args).lda = args.n ∧
    (dsygvxCall mem args).ldb = args.n ∧
    (dsygvxCall mem args).ldz = args.n ∧
    (dsygvxCall mem args).abstol = 1e-5 ∧
    (dsygvxCall mem args).n = args.n ∧
    (dsygvxCall mem args).a = args.a ∧
    (dsygvxCall mem args).b = args.b ∧
    (dsygvxCall mem args).il = args.il ∧
    (dsygvxCall mem args).m = args.m ∧
    (dsygvxCall mem args).w = args.w ∧
    (dsygvxCall mem args).z = args.z ∧
    (dsygvxCall mem args).work = args.work ∧
    (dsygvxCall mem args).iwork = args.iwork ∧
    (dsygvxCall mem args).ifail = args.ifail ∧
    (dsygvxCall mem args).info = args.info :=
  ⟨rfl, rfl, rfl, rfl, rfl, rfl, rfl, rfl, rfl, rfl, rfl, rfl, rfl, rfl, rfl,
   rfl, rfl, rfl, rfl, rfl, rfl⟩

/-- C3 counterexample: with the stored dimension `*n = 2 ^ 29` (a valid C
`int`), the `lwork` actually passed is `0`, which is not the mathematical
product `8 * 2 ^ 29`. -/
theorem lwork_not_8n_at_large_n :
    (dsygvxCall ⟨fun _ => 2 ^ 29, fun _ => 0⟩
        ⟨0, 1, 2, 3, 4, 5, 6, 7, 8, 9, 10⟩).lwork = 0 ∧
    (0 : Int) ≠ 8 * 2 ^ 29 := by
  constructor
  · show wrap32 (8 * 2 ^ 29) = 0
    unfold wrap32
    decide
  · decide

/-- C3 (amended): whenever the product `8 * (*n)` is representable in a
32-bit C `int`, the workspace length passed to the external routine equals
`8 * (*n)` exactly (outside that range it is the wrapped value, see the
`lwork` arithmetic theorem). -/
theorem lwork_eq_8n (mem : Mem) (args : CArgs)
    (h₁ : -2147483648 ≤ 8 * mem.ints args.n)
    (h₂ : 8 * mem.ints args.n ≤ 2147483647) :
    (dsygvxCall mem args).lwork = 8 * mem.ints args.n := by
  show wrap32 (8 * mem.ints args.n) = 8 * mem.ints args.n
  unfold wrap32
  omega

/-- C3 witness: a concrete in-range invocation, `*n = 7`. -/
theorem lwork_eq_8n_witness :
    (dsygvxCall ⟨fun _ => 7, fun _ => 0⟩
        ⟨0, 1, 2, 3, 4, 5, 6, 7, 8, 9, 10⟩).lwork = 8 * (7 : Int) :=
  lwork_eq_8n ⟨fun _ => 7, fun _ => 0⟩ ⟨0, 1, 2, 3, 4, 5, 6, 7, 8, 9, 10⟩
    (by decide) (by decide)

/-- C8: `lwork` is computed as `8 * (*n)` in 32-bit C `int` arithmetic: it
always equals the two's-complement wrap of the product; for `0 ≤ 8·n ≤
INT_MAX` it is exactly `8·n`, and for `8·n > INT_MAX` it differs from `8·n`
but is congruent to it modulo `2 ^ 32`. -/
theorem lwork_int_arithmetic (mem : Mem) (args : CArgs) :
    (dsygvxCall mem args).lwork = wrap32 (8 * mem.ints args.n) ∧
    (0 ≤ 8 * mem.ints args.n → 8 * mem.ints args.n ≤ 2147483647 →
      (dsygvxCall mem args).lwork = 8 * mem.ints args.n) ∧
    (2147483647 < 8 * mem.ints args.n →
      (dsygvxCall mem args).lwork ≠ 8 * mem.ints args.n ∧
      ((dsygvxCall mem args).lwork - 8 * mem.ints args.n) % 4294967296 = 0) := by
  refine ⟨rfl, fun h₁ h₂ => ?_, fun h => ⟨?_, ?_⟩⟩
  · show wrap32 (8 * mem.ints args.n) = 8 * mem.ints args.n
    unfold wrap32
    omega
  · show wrap32 (8 * mem.ints args.n) ≠ 8 * mem.ints args.n
    unfold wrap32
    omega
  · show (wrap32 (8 * mem.ints args.n) - 8 * mem.ints args.n) % 4294967296 = 0
    unfold wrap32
    omega

/-- C2: the registration table holds exactly one callable row, mapping the
name "dsygvx_c" to the shim itself with declared arity 11 — the length of
the shim's parameter list — and after module initialization dynamic lookup
is disabled, so precisely the name "dsygvx_c" resolves. -/
theorem registration_single_entry (dll : DllInfo) :
    CEntries.filter (fun e => e.name.isSome && e.fn.isSome) =
      [{ name := some ("dsygvx_c"), fn := some dsygvx_c, numArgs := 11 }] ∧
    (11 : Int) = dsygvxParamNames.length ∧
    (R_init_linproj dll).useDynSym = false ∧
    (∀ s : String, symbolResolvable (R_init_linproj dll) s = true ↔ s = "dsygvx_c") := by
  refine ⟨rfl, rfl, rfl, fun s => ?_⟩
  simp only [symbolResolvable, R_init_linproj, R_useDynamicSymbols,
    R_registerRoutines, lookupIn, CEntries]
  simp
  exact eq_comm

/-- C4: the shim neither intercepts nor rewrites the status code: the final
content of the caller's `info` cell is exactly what the external routine
left there, the whole final memory is the external routine's output memory,
and exactly one external call is made (no retry afterward). -/
theorem dsygvx_c_info_passthrough (ext : FortranCall → Mem → Mem)
    (mem : Mem) (args : CArgs) :
    ((dsygvx_c ext mem args).2).ints args.info =
      (ext (dsygvxCall mem args) mem).ints args.info ∧
    (dsygvx_c ext mem args).2 = ext (dsygvxCall mem args) mem ∧
    (dsygvx_c ext mem args).1.length = 1 :=
  ⟨rfl, rfl, rfl⟩

/-- C5: no argument validation: for every memory and every argument tuple —
null addresses, a non-positive stored `n`, an `il` outside `[1, n]`, any `B`
whatsoever — the external routine is invoked, unconditionally, on exactly
the call record built from those values. -/
theorem dsygvx_c_no_validation (ext : FortranCall → Mem → Mem)
    (mem : Mem) (args : CArgs) :
    (dsygvx_c ext mem args).1 = [dsygvxCall mem args] ∧
    (dsygvx_c ext mem args).1 ≠ [] :=
  ⟨rfl, by simp [dsygvx_c]⟩

/-- C7: the shim allocates nothing and frees nothing of its own: its entire
effect on caller-visible memory factors through the single external call,
and with an external routine that writes nothing the invocation leaves every
memory cell unchanged. -/
theorem dsygvx_c_frame (ext : FortranCall → Mem → Mem)
    (mem : Mem) (args : CArgs) :
    (dsygvx_c ext mem args).2 = ext (dsygvxCall mem args) mem ∧
    (dsygvx_c (fun _ m => m) mem args).2 = mem :=
  ⟨rfl, rfl⟩

/-- C9: module initialization populates only the `.C` table: the `.Call`,
`.Fortran` and `.External` tables are NULL, and with dynamic lookup disabled
a name resolves from the loaded module exactly when it resolves through the
`.C` table. -/
theorem registration_c_table_only (dll : DllInfo) :
    (R_init_linproj dll).cRoutines = some CEntries ∧
    (R_init_linproj dll).callRoutines = none ∧
    (R_init_linproj dll).fortranRoutines = none ∧
    (R_init_linproj dll).externalRoutines = none ∧
    (∀ s : String, symbolResolvable (R_init_linproj dll) s =
      lookupIn (some CEntries) s) := by
  refine ⟨rfl, rfl, rfl, rfl, fun s => ?_⟩
  simp [symbolResolvable, R_init_linproj, R_useDynamicSymbols, R_registerRoutines,
    lookupIn]

/-- Commutation of two external calls whose read/write footprints are
disjoint, for an external routine that writes only inside its footprint and
whose writes depend only on the footprint's prior content. -/
theorem extCallComm (ext : FortranCall → Mem → Mem)
    (fi fd : FortranCall → Addr → Prop)
    (frameInt : ∀ c m p, ¬ fi c p → (ext c m).ints p = m.ints p)
    (frameDbl : ∀ c m p, ¬ fd c p → (ext c m).dbls p = m.dbls p)
    (depInt : ∀ c m₁ m₂, (∀ p, fi c p → m₁.ints p = m₂.ints p) →
      (∀ p, fd c p → m₁.dbls p = m₂.dbls p) →
      ∀ p, fi c p → (ext c m₁).ints p = (ext c m₂).ints p)
    (depDbl : ∀ c m₁ m₂, (∀ p, fi c p → m₁.ints p = m₂.ints p) →
      (∀ p, fd c p → m₁.dbls p = m₂.dbls p) →
      ∀ p, fd c p → (ext c m₁).dbls p = (ext c m₂).dbls p)
    (c₁ c₂ : FortranCall) (mem : Mem)
    (hdisInt : ∀ p, fi c₁ p → ¬ fi c₂ p)
    (hdisDbl : ∀ p, fd c₁ p → ¬ fd c₂ p) :
    ext c₂ (ext c₁ mem) = ext c₁ (ext c₂ mem) := by
  have agreeInt₁ : ∀ p, fi c₂ p → (ext c₁ mem).ints p = mem.ints p :=
    fun p hp => frameInt c₁ mem p (fun h => hdisInt p h hp)
  have agreeDbl₁ : ∀ p, fd c₂ p → (ext c₁ mem).dbls p = mem.dbls p :=
    fun p hp => frameDbl c₁ mem p (fun h => hdisDbl p h hp)
  have agreeInt₂ : ∀ p, fi c₁ p → (ext c₂ mem).ints p = mem.ints p :=
    fun p hp => frameInt c₂ mem p (hdisInt p hp)
  have agreeDbl₂ : ∀ p, fd c₁ p → (ext c₂ mem).dbls p = mem.dbls p :=
    fun p hp => frameDbl c₂ mem p (hdisDbl p hp)
  apply Mem.ext
  · funext p
    by_cases h₂ : fi c₂ p
    · have h₁ : ¬ fi c₁ p := fun h => hdisInt p h h₂
      calc (ext c₂ (ext c₁ mem)).ints p
          = (ext c₂ mem).ints p := depInt c₂ _ _ agreeInt₁ agreeDbl₁ p h₂
        _ = (ext c₁ (ext c₂ mem)).ints p := (frameInt c₁ _ p h₁).symm
    · by_cases h₁ : fi c₁ p
      · calc (ext c₂ (ext c₁ mem)).ints p
            = (ext c₁ mem).ints p := frameInt c₂ _ p h₂
          _ = (ext c₁ (ext c₂ mem)).ints p :=
            (depInt c₁ _ _ agreeInt₂ agreeDbl₂ p h₁).symm
      · rw [frameInt c₂ _ p h₂, frameInt c₁ _ p h₁,
          frameInt c₁ _ p h₁, frameInt c₂ _ p h₂]
  · funext p
    by_cases h₂ : fd c₂ p
    · have h₁ : ¬ fd c₁ p := fun h => hdisDbl p h h₂
      calc (ext c₂ (ext c₁ mem)).dbls p
          = (ext c₂ mem).dbls p := depDbl c₂ _ _ agreeInt₁ agreeDbl₁ p h₂
        _ = (ext c₁ (ext c₂ mem)).dbls p := (frameDbl c₁ _ p h₁).symm
    · by_cases h₁ : fd c₁ p
      · calc (ext c₂ (ext c₁ mem)).dbls p
            = (ext c₁ mem).dbls p := frameDbl c₂ _ p h₂
          _ = (ext c₁ (ext c₂ mem)).dbls p :=
            (depDbl c₁ _ _ agreeInt₂ agreeDbl₂ p h₁).symm
      · rw [frameDbl c₂ _ p h₂, frameDbl c₁ _ p h₁,
          frameDbl c₁ _ p h₁, frameDbl c₂ _ p h₂]

/-- C6: the shim keeps no hidden state.  First, the call it issues is a
function of its arguments and the content of the `n` cell alone, so equal
argument values give equal external calls.  Second, for an external routine
that reads and writes only within a per-call footprint, two invocations on
disjoint footprints (neither of which covers the other's `n` cell) produce
the same final memory in either order. -/
theorem dsygvx_c_stateless (ext : FortranCall → Mem → Mem)
    (fi fd : FortranCall → Addr → Prop)
    (frameInt : ∀ c m p, ¬ fi c p → (ext c m).ints p = m.ints p)
    (frameDbl : ∀ c m p, ¬ fd c p → (ext c m).dbls p = m.dbls p)
    (depInt : ∀ c m₁ m₂, (∀ p, fi c p → m₁.ints p = m₂.ints p) →
      (∀ p, fd c p → m₁.dbls p = m₂.dbls p) →
      ∀ p, fi c p → (ext c m₁).ints p = (ext c m₂).ints p)
    (depDbl : ∀ c m₁ m₂, (∀ p, fi c p → m₁.ints p = m₂.ints p) →
      (∀ p, fd c p → m₁.dbls p = m₂.dbls p) →
      ∀ p, fd c p → (ext c m₁).dbls p = (ext c m₂).dbls p)
    (mem : Mem) (args₁ args₂ : CArgs)
    (hdisInt : ∀ p, fi (dsygvxCall mem args₁) p → ¬ fi (dsygvxCall mem args₂) p)
    (hdisDbl : ∀ p, fd (dsygvxCall mem args₁) p → ¬ fd (dsygvxCall mem args₂) p)
    (hn₁ : ¬ fi (dsygvxCall mem args₂) args₁.n)
    (hn₂ : ¬ fi (dsygvxCall mem args₁) args₂.n) :
    (∀ mem' : Mem, mem'.ints args₁.n = mem.ints args₁.n →
      dsygvxCall mem' args₁ = dsygvxCall mem args₁) ∧
    (dsygvx_c ext (dsygvx_c ext mem args₁).2 args₂).2 =
      (dsygvx_c ext (dsygvx_c ext mem args₂).2 args₁).2 := by
  have hdet : ∀ (m' : Mem) (a : CArgs), m'.ints a.n = mem.ints a.n →
      dsygvxCall m' a = dsygvxCall mem a := by
    intro m' a h
    simp [dsygvxCall, h]
  refine ⟨fun m' h => hdet m' args₁ h, ?_⟩
  have e₂ : dsygvxCall (ext (dsygvxCall mem args₁) mem) args₂ =
      dsygvxCall mem args₂ :=
    hdet _ _ (frameInt (dsygvxCall mem args₁) mem args₂.n hn₂)
  have e₁ : dsygvxCall (ext (dsygvxCall mem args₂) mem) args₁ =
      dsygvxCall mem args₁ :=
    hdet _ _ (frameInt (dsygvxCall mem args₂) mem args₁.n hn₁)
  show ext (dsygvxCall (ext (dsygvxCall mem args₁) mem) args₂)
      (ext (dsygvxCall mem args₁) mem) =
    ext (dsygvxCall (ext (dsygvxCall mem args₂) mem) args₁)
      (ext (dsygvxCall mem args₂) mem)
  rw [e₁, e₂]
  exact extCallComm ext fi fd frameInt frameDbl depInt depDbl
    (dsygvxCall mem args₁) (dsygvxCall mem args₂) mem hdisInt hdisDbl

/-- C6 witness: the no-footprint identity external routine at two concrete
argument tuples on a concrete memory. -/
theorem dsygvx_c_stateless_witness :
    (∀ mem' : Mem, mem'.ints ((⟨0, 0, 0, 0, 0, 0, 0, 0, 0, 0, 0⟩ : CArgs).n) =
        (⟨fun _ => 0, fun _ => 0⟩ : Mem).ints
          ((⟨0, 0, 0, 0, 0, 0, 0, 0, 0, 0, 0⟩ : CArgs).n) →
      dsygvxCall mem' ⟨0, 0, 0, 0, 0, 0, 0, 0, 0, 0, 0⟩ =
        dsygvxCall ⟨fun _ => 0, fun _ => 0⟩ ⟨0, 0, 0, 0, 0, 0, 0, 0, 0, 0, 0⟩) ∧
    (dsygvx_c (fun _ m => m)
        (dsygvx_c (fun _ m => m) ⟨fun _ => 0, fun _ => 0⟩
          ⟨0, 0, 0, 0, 0, 0, 0, 0, 0, 0, 0⟩).2
        ⟨1, 1, 1, 1, 1, 1, 1, 1, 1, 1, 1⟩).2 =
      (dsygvx_c (fun _ m => m)
        (dsygvx_c (fun _ m => m) ⟨fun _ => 0, fun _ => 0⟩
          ⟨1, 1, 1, 1, 1, 1, 1, 1, 1, 1, 1⟩).2
        ⟨0, 0, 0, 0, 0, 0, 0, 0, 0, 0, 0⟩).2 :=
  dsygvx_c_stateless (fun _ m => m) (fun _ _ => False) (fun _ _ => False)
    (fun _ _ _ _ => rfl) (fun _ _ _ _ => rfl)
    (fun _ _ _ _ _ _ h => h.elim) (fun _ _ _ _ _ _ h => h.elim)
    ⟨fun _ => 0, fun _ => 0⟩ ⟨0, 0, 0, 0, 0, 0, 0, 0, 0, 0, 0⟩
    ⟨1, 1, 1, 1, 1, 1, 1, 1, 1, 1, 1⟩
    (fun _ h => h.elim) (fun _ h => h.elim) (fun h => h) (fun h => h)

end Linproj
